import Mathlib

/-!
Verification development for the convolutional LSTM cell implemented in
img_optim/conv_lstm_cell.py.

Tensors are modelled over the rationals (exact arithmetic idealising the
float computations): a 4-D tensor is a shape quadruple (n, c, h, w)
together with a total data function on natural indices; entries outside
the shape are irrelevant to the stated properties. The hyperbolic tangent
activation (torch.tanh, a library function) is kept abstract: every
definition that uses it takes it as an explicit function argument th.
Device placement, which matters because the hard sigmoid helper pins its
clamp bounds to the CUDA device, is modelled separately by a small
device-propagation semantics. Heap behaviour of forward (which torch
tensors it writes) is modelled by a store-passing variant in which result
tensors are appended as fresh cells.
-/

/-- Compute device of a tensor, as far as the verified properties need it:
either host memory (cpu) or the accelerator (cuda). -/
inductive Device where
  | cpu : Device
  | cuda : Device
deriving DecidableEq

/-- Shallow model of a 4-D torch tensor with shape (n, c, h, w): the data
function is total on natural indices; only values at indices below the
shape bounds are meaningful. -/
@[ext]
structure Tensor where
  n : ℕ
  c : ℕ
  h : ℕ
  w : ℕ
  data : ℕ → ℕ → ℕ → ℕ → ℚ

instance : Inhabited Tensor := ⟨⟨0, 0, 0, 0, fun _ _ _ _ => 0⟩⟩

/-- Elementwise sum of two same-shaped 4-D tensors (torch +). -/
def tadd (a b : Tensor) : Tensor :=
  { a with data := fun i j y x => a.data i j y x + b.data i j y x }

/-- Elementwise product of two same-shaped 4-D tensors (torch *). -/
def tmul (a b : Tensor) : Tensor :=
  { a with data := fun i j y x => a.data i j y x * b.data i j y x }

/-- Elementwise difference of two same-shaped 4-D tensors (torch -). -/
def tsub (a b : Tensor) : Tensor :=
  { a with data := fun i j y x => a.data i j y x - b.data i j y x }

/-- Broadcast product of a 3-D parameter tensor of shape (c, h, w) with a
4-D tensor of shape (n, c, h, w) — the peephole term Wc* * Ct in forward,
broadcast over the batch dimension. -/
def peepMul (P : ℕ → ℕ → ℕ → ℚ) (t : Tensor) : Tensor :=
  { t with data := fun i j y x => P j y x * t.data i j y x }

/-- Broadcast sum of a 4-D tensor with a per-channel bias of shape
(c, 1, 1) — the tied-bias term + b* in forward, broadcast over batch and
spatial dimensions. -/
def addBias (t : Tensor) (b : ℕ → ℚ) : Tensor :=
  { t with data := fun i j y x => t.data i j y x + b j }

/-- Elementwise application of a scalar function (e.g. torch.tanh). -/
def tmap (g : ℚ → ℚ) (t : Tensor) : Tensor :=
  { t with data := fun i j y x => g (t.data i j y x) }

/-- Scalar bounded sigmoid from conv_lstm_cell.py lines 17-29 (value
semantics): torch.max(torch.min(input * 0.2 + 0.5, 1), 0). -/
def hard_sigmoid (x : ℚ) : ℚ :=
  max (min (x * 0.2 + 0.5) 1) 0

/-- Elementwise bounded sigmoid on a tensor. -/
def hardSigmoidT (t : Tensor) : Tensor :=
  tmap hard_sigmoid t

/-- Zero-padded read of a tensor at possibly out-of-range spatial
coordinates, as used by a padded convolution. -/
def padGet (t : Tensor) (b c : ℕ) (y x : ℤ) : ℚ :=
  if 0 ≤ y ∧ y < (t.h : ℤ) ∧ 0 ≤ x ∧ x < (t.w : ℤ) then
    t.data b c y.toNat x.toNat
  else 0

/-- Shallow model of nn.Conv2d as configured in the cell: out-channel
count cout, in-channel count cin, kernel (kh, kw), a weight tensor of
shape (cout, cin, kh, kw), an optional per-out-channel bias (absent when
the cell uses tied biases), and the device its weight resides on. -/
structure Conv2dLayer where
  cout : ℕ
  cin : ℕ
  kh : ℕ
  kw : ℕ
  weight : ℕ → ℕ → ℕ → ℕ → ℚ
  bias : Option (ℕ → ℚ)
  dev : Device

/-- Stride-1 zero-padded 2-D convolution (nn.Conv2d with stride 1 and
padding p): output spatial size is hin + 2 * p - k + 1 per dimension. -/
def conv2d (L : Conv2dLayer) (p : ℕ × ℕ) (t : Tensor) : Tensor :=
  { n := t.n
    c := L.cout
    h := t.h + 2 * p.1 + 1 - L.kh
    w := t.w + 2 * p.2 + 1 - L.kw
    data := fun b co y x =>
      (match L.bias with
       | some bf => bf co
       | none => 0) +
      ∑ ci in Finset.range L.cin, ∑ dy in Finset.range L.kh,
        ∑ dx in Finset.range L.kw,
          L.weight co ci dy dx *
            padGet t b ci ((y : ℤ) + dy - p.1) ((x : ℤ) + dx - p.2) }

/-- The ConvLSTMCell module state, mirroring the attributes set by the
constructor in conv_lstm_cell.py lines 64-107: configuration fields, the
eight convolution submodules, the three peephole parameters of shape
(hidden_dim, h, w), and the four tied-bias parameters of shape
(hidden_dim, 1, 1). The constructor stores gating_mode without any
validation, initialises the peephole tensors to ones (their values are
independent of the peephole flag, which only sets requires_grad), and the
tied biases to zeros. -/
structure ConvLSTMCell where
  input_size : ℕ × ℕ
  input_dim : ℕ
  hidden_dim : ℕ
  kernel_size : ℕ × ℕ
  gating_mode : String
  peephole : Bool
  tied_bias : Bool
  Wxi : Conv2dLayer
  Whi : Conv2dLayer
  Wxf : Conv2dLayer
  Whf : Conv2dLayer
  Wxo : Conv2dLayer
  Who : Conv2dLayer
  Wxc : Conv2dLayer
  Whc : Conv2dLayer
  Wci : ℕ → ℕ → ℕ → ℚ
  Wcf : ℕ → ℕ → ℕ → ℚ
  Wco : ℕ → ℕ → ℕ → ℚ
  bi : ℕ → ℚ
  bf : ℕ → ℚ
  bc : ℕ → ℚ
  bo : ℕ → ℚ

/-- Padding derived from the kernel size, line 76: (kh // 2, kw // 2). -/
def ConvLSTMCell.padding (cell : ConvLSTMCell) : ℕ × ℕ :=
  (cell.kernel_size.1 / 2, cell.kernel_size.2 / 2)

/-- Input gate of forward, line 151:
i = hard_sigmoid(Wxi(Xt) + Whi(Htm1) + Wci * Ctm1 + bi). -/
def ConvLSTMCell.gate_i (cell : ConvLSTMCell) (Xt Htm1 Ctm1 : Tensor) : Tensor :=
  hardSigmoidT (addBias
    (tadd (tadd (conv2d cell.Wxi cell.padding Xt) (conv2d cell.Whi cell.padding Htm1))
      (peepMul cell.Wci Ctm1)) cell.bi)

/-- Forget gate of forward, line 152:
f = hard_sigmoid(Wxf(Xt) + Whf(Htm1) + Wcf * Ctm1 + bf). -/
def ConvLSTMCell.gate_f (cell : ConvLSTMCell) (Xt Htm1 Ctm1 : Tensor) : Tensor :=
  hardSigmoidT (addBias
    (tadd (tadd (conv2d cell.Wxf cell.padding Xt) (conv2d cell.Whf cell.padding Htm1))
      (peepMul cell.Wcf Ctm1)) cell.bf)

/-- State transition of the cell, conv_lstm_cell.py lines 109-164. The
tanh activation is passed in as th. The branch on gating_mode is exactly
the source's: the string comparison with "mul" selects the multiplicative
composition, and every other mode string takes the else branch
(subtractive composition). -/
def ConvLSTMCell.forward (cell : ConvLSTMCell) (th : ℚ → ℚ)
    (input_tensor : Tensor) (prev_state : Tensor × Tensor) : Tensor × Tensor :=
  let Xt := input_tensor
  let Htm1 := prev_state.1
  let Ctm1 := prev_state.2
  let p := cell.padding
  let i := cell.gate_i Xt Htm1 Ctm1
  let f := cell.gate_f Xt Htm1 Ctm1
  if cell.gating_mode = "mul" then
    let Ctc := tmap th (addBias (tadd (conv2d cell.Wxc p Xt) (conv2d cell.Whc p Htm1)) cell.bc)
    let Ct := tadd (tmul f Ctm1) (tmul i Ctc)
    let o := hardSigmoidT (addBias
      (tadd (tadd (conv2d cell.Wxo p Xt) (conv2d cell.Who p Htm1)) (peepMul cell.Wco Ct))
      cell.bo)
    let Ht := tmul o (tmap th Ct)
    (Ht, Ct)
  else
    let Ctc := hardSigmoidT (addBias (tadd (conv2d cell.Wxc p Xt) (conv2d cell.Whc p Htm1)) cell.bc)
    let Ct := tsub (tadd (tmul f Ctm1) Ctc) i
    let o := hardSigmoidT (addBias
      (tadd (tadd (conv2d cell.Wxo p Xt) (conv2d cell.Who p Htm1)) (peepMul cell.Wco Ct))
      cell.bo)
    let Ht := tsub (hardSigmoidT Ct) o
    (Ht, Ct)

/-- Zeros-of-shape helper (torch.zeros((batch, hidden, h, w))). -/
def zerosT (n c h w : ℕ) : Tensor :=
  ⟨n, c, h, w, fun _ _ _ _ => 0⟩

/-- Hidden-state initializer, lines 166-185: a pair of all-zero tensors
shaped (batch_size, hidden_dim, h, w), each tagged with the device read
from the Wxi convolution's weight. -/
def ConvLSTMCell.init_hidden (cell : ConvLSTMCell) (batch_size : ℕ) :
    (Device × Tensor) × (Device × Tensor) :=
  let device_ := cell.Wxi.dev
  let h := cell.input_size.1
  let w := cell.input_size.2
  ((device_, zerosT batch_size cell.hidden_dim h w),
   (device_, zerosT batch_size cell.hidden_dim h w))

/-- Dimension contract of one convolution submodule as allocated by the
constructor (lines 93-99): in-channels, out-channels and kernel size. -/
def LayerDims (L : Conv2dLayer) (ci co : ℕ) (k : ℕ × ℕ) : Prop :=
  L.cin = ci ∧ L.cout = co ∧ L.kh = k.1 ∧ L.kw = k.2

/-- Well-formed cell: the eight convolutions have the dimensions the
constructor gives them — the x-side ones map input_dim to hidden_dim, the
h-side ones hidden_dim to hidden_dim, all with the configured kernel. -/
def ConvLSTMCell.WellFormed (cell : ConvLSTMCell) : Prop :=
  LayerDims cell.Wxi cell.input_dim cell.hidden_dim cell.kernel_size ∧
  LayerDims cell.Whi cell.hidden_dim cell.hidden_dim cell.kernel_size ∧
  LayerDims cell.Wxf cell.input_dim cell.hidden_dim cell.kernel_size ∧
  LayerDims cell.Whf cell.hidden_dim cell.hidden_dim cell.kernel_size ∧
  LayerDims cell.Wxo cell.input_dim cell.hidden_dim cell.kernel_size ∧
  LayerDims cell.Who cell.hidden_dim cell.hidden_dim cell.kernel_size ∧
  LayerDims cell.Wxc cell.input_dim cell.hidden_dim cell.kernel_size ∧
  LayerDims cell.Whc cell.hidden_dim cell.hidden_dim cell.kernel_size

/-- Concrete stand-in for the tanh activation argument, used only to form
closed instances; the facts proved at it do not depend on its values. -/
def thId : ℚ → ℚ := fun x => x

/-- Concrete 1x1 convolution layer with all-zero weights and no bias. -/
def zeroL : Conv2dLayer :=
  ⟨1, 1, 1, 1, fun _ _ _ _ => 0, none, Device.cuda⟩

/-- Concrete all-zero tensor of shape (1, 1, 1, 1). -/
def T0 : Tensor := zerosT 1 1 1 1

/-- Concrete minimal cell: 1x1 images, one channel, 1x1 kernels with
all-zero weights, peephole tensors one, biases zero. -/
def baseCell (mode : String) : ConvLSTMCell :=
  { input_size := (1, 1), input_dim := 1, hidden_dim := 1, kernel_size := (1, 1)
    gating_mode := mode, peephole := false, tied_bias := false
    Wxi := zeroL, Whi := zeroL, Wxf := zeroL, Whf := zeroL
    Wxo := zeroL, Who := zeroL, Wxc := zeroL, Whc := zeroL
    Wci := fun _ _ _ => 1, Wcf := fun _ _ _ => 1, Wco := fun _ _ _ => 1
    bi := fun _ => 0, bf := fun _ => 0, bc := fun _ => 0, bo := fun _ => 0 }

/-- Concrete previous cell state holding -10 everywhere. -/
def CmT : Tensor := ⟨1, 1, 1, 1, fun _ _ _ _ => -10⟩

/-- Concrete cell for the mode-coincidence construction: zero conv and
peephole weights with biases bi = bc = bo = -10 and bf = 0, so that the
input and output gates saturate at 0 while the forget gate is 1/2. -/
def c7cell (mode : String) : ConvLSTMCell :=
  { baseCell mode with
    Wci := fun _ _ _ => 0, Wcf := fun _ _ _ => 0, Wco := fun _ _ _ => 0
    bi := fun _ => -10, bc := fun _ => -10, bo := fun _ => -10 }

/-- Concrete cell for the mode-divergence construction: zero conv and
peephole weights with bi = -10 (input gate saturates at 0) and all other
biases zero (forget gate 1/2, subtractive candidate 1/2). -/
def c7dcell (mode : String) : ConvLSTMCell :=
  { baseCell mode with
    Wci := fun _ _ _ => 0, Wcf := fun _ _ _ => 0, Wco := fun _ _ _ => 0
    bi := fun _ => -10 }

/-- Device semantics of a binary elementwise torch operation: it requires
both operands on the same device and raises otherwise. -/
def binDev (a b : Device) : Except String Device :=
  if a = b then Except.ok a else Except.error "Expected all tensors to be on the same device"

/-- Device semantics of hard_sigmoid, lines 27-29: the clamp bounds are
created with torch.tensor(...).cuda(), i.e. pinned to the CUDA device, so
torch.min and torch.max each combine the input with a CUDA tensor. -/
def hard_sigmoid_device (input : Device) : Except String Device := do
  let m ← binDev input Device.cuda
  binDev m Device.cuda

/-- Device semantics of a gate pre-activation of forward: convolutions of
Xt and Htm1 by weights on pdev, the peephole product with the state on
cdev, and the bias addition. -/
def gate_pre_device (pdev xdev hdev cdev : Device) : Except String Device := do
  let cx ← binDev pdev xdev
  let ch ← binDev pdev hdev
  let pc ← binDev pdev cdev
  let s1 ← binDev cx ch
  let s2 ← binDev s1 pc
  binDev s2 pdev

/-- Device semantics of the whole forward transition (lines 151-164),
with all parameters on pdev and the operands Xt, Htm1, Ctm1 on xdev,
hdev, cdev: each gate pre-activation is combined elementwise and then
passed through hard_sigmoid (whose clamp bounds are pinned to CUDA); tanh
preserves its operand's device. -/
def forward_device (mode : String) (pdev xdev hdev cdev : Device) :
    Except String (Device × Device) := do
  let i ← hard_sigmoid_device (← gate_pre_device pdev xdev hdev cdev)
  let f ← hard_sigmoid_device (← gate_pre_device pdev xdev hdev cdev)
  if mode = "mul" then
    let cand ← binDev (← binDev (← binDev pdev xdev) (← binDev pdev hdev)) pdev
    let ct ← binDev (← binDev f cdev) (← binDev i cand)
    let o ← hard_sigmoid_device (← gate_pre_device pdev xdev hdev ct)
    let ht ← binDev o ct
    return (ht, ct)
  else
    let cand ← hard_sigmoid_device
      (← binDev (← binDev (← binDev pdev xdev) (← binDev pdev hdev)) pdev)
    let ct ← binDev (← binDev (← binDev f cdev) cand) i
    let o ← hard_sigmoid_device (← gate_pre_device pdev xdev hdev ct)
    let ht ← binDev (← hard_sigmoid_device ct) o
    return (ht, ct)

/-- Heap of live tensors, for the frame property of forward. -/
abbrev Store := List Tensor

/-- Allocation of a fresh tensor: appended at the end of the store, its
index is the old length. -/
def alloc (s : Store) (t : Tensor) : Store × ℕ := (s ++ [t], s.length)

/-- Read of a store cell (default tensor out of range). -/
def readT (s : Store) (i : ℕ) : Tensor := s.getD i default

/-- Store-passing form of forward. Every tensor operation in the source's
forward (lines 151-164) is out-of-place — convolution, elementwise
arithmetic, tanh and hard_sigmoid all produce fresh result tensors and
never write an operand — so the transition is modelled as reading the
argument cells and appending the two freshly computed result tensors,
leaving every pre-existing cell untouched. -/
def forwardStore (cell : ConvLSTMCell) (th : ℚ → ℚ) (s : Store) (ix ih ic : ℕ) :
    Store × ℕ × ℕ :=
  let out := cell.forward th (readT s ix) (readT s ih, readT s ic)
  let a1 := alloc s out.1
  let a2 := alloc a1.1 out.2
  (a2.1, a1.2, a2.2)

section HardSigmoidLemmas

lemma hs_eq_zero {x : ℚ} (hx : x ≤ -(5/2)) : hard_sigmoid x = 0 := by
  have h1 : x * 0.2 + 0.5 ≤ 0 := by
    norm_num
    linarith
  unfold hard_sigmoid
  have h2 : min (x * 0.2 + 0.5) 1 = x * 0.2 + 0.5 := min_eq_left (by linarith)
  rw [h2]
  exact max_eq_right h1

lemma hs_eq_one {x : ℚ} (hx : (5/2) ≤ x) : hard_sigmoid x = 1 := by
  have h1 : (1 : ℚ) ≤ x * 0.2 + 0.5 := by
    norm_num
    linarith
  unfold hard_sigmoid
  have h2 : min (x * 0.2 + 0.5) 1 = 1 := min_eq_right h1
  rw [h2]
  exact max_eq_left (by norm_num)

lemma hs_linear {x : ℚ} (h1 : -(5/2) ≤ x) (h2 : x ≤ 5/2) :
    hard_sigmoid x = x * 0.2 + 0.5 := by
  have ha : (0 : ℚ) ≤ x * 0.2 + 0.5 := by
    norm_num
    linarith
  have hb : x * 0.2 + 0.5 ≤ 1 := by
    norm_num
    linarith
  unfold hard_sigmoid
  rw [min_eq_left hb]
  exact max_eq_left ha

lemma hs_nonneg (x : ℚ) : 0 ≤ hard_sigmoid x := le_max_right _ _

lemma hs_le_one (x : ℚ) : hard_sigmoid x ≤ 1 := by
  unfold hard_sigmoid
  exact max_le (min_le_right _ _) (by norm_num)

lemma hs_neg10 : hard_sigmoid (-10 : ℚ) = 0 := hs_eq_zero (by norm_num)

lemma hs_neg5 : hard_sigmoid (-5 : ℚ) = 0 := hs_eq_zero (by norm_num)

lemma hs_zero : hard_sigmoid (0 : ℚ) = 1/2 := by
  rw [hs_linear (by norm_num) (by norm_num)]; norm_num

end HardSigmoidLemmas

/-- Evaluation of the multiplicative transition at the c7cell
construction: the input and output gates saturate at 0, the forget gate
is 1/2, so the output is (0, -5) at every position, independently of the
tanh argument th (whose two occurrences are multiplied by 0). -/
lemma c7_mul_eval (th : ℚ → ℚ) :
    (c7cell "mul").forward th T0 (T0, CmT) =
      (zerosT 1 1 1 1, ⟨1, 1, 1, 1, fun _ _ _ _ => -5⟩) := by
  simp only [ConvLSTMCell.forward, ConvLSTMCell.gate_i, ConvLSTMCell.gate_f,
    ConvLSTMCell.padding, c7cell, baseCell, zeroL, T0, CmT, zerosT,
    hardSigmoidT, tmap, tadd, tmul, tsub, peepMul, addBias, conv2d, if_true,
    zero_mul, mul_zero, add_zero, zero_add, Finset.sum_const_zero]
  refine Prod.ext ?_ ?_ <;> apply Tensor.ext <;> try rfl
  · funext b c y x
    simp only [hs_neg10, hs_zero, zero_mul]
  · funext b c y x
    simp only [hs_neg10, hs_zero, zero_mul, add_zero]
    norm_num

/-- Evaluation of the subtractive transition at the c7cell construction:
it also yields (0, -5) at every position. -/
lemma c7_sub_eval (th : ℚ → ℚ) :
    (c7cell "sub").forward th T0 (T0, CmT) =
      (zerosT 1 1 1 1, ⟨1, 1, 1, 1, fun _ _ _ _ => -5⟩) := by
  simp only [ConvLSTMCell.forward, ConvLSTMCell.gate_i, ConvLSTMCell.gate_f,
    ConvLSTMCell.padding, c7cell, baseCell, zeroL, T0, CmT, zerosT,
    hardSigmoidT, tmap, tadd, tmul, tsub, peepMul, addBias, conv2d,
    zero_mul, mul_zero, add_zero, zero_add, Finset.sum_const_zero]
  rw [if_neg (by decide : ¬("sub" : String) = "mul")]
  refine Prod.ext ?_ ?_ <;> apply Tensor.ext <;> try rfl
  · funext b c y x
    simp only [hs_neg10, hs_zero, zero_mul, add_zero, sub_zero]
    norm_num [hs_neg5]
  · funext b c y x
    simp only [hs_neg10, hs_zero, zero_mul, add_zero, sub_zero]
    norm_num

/-- Evaluation of the new cell state at the c7dcell construction in
multiplicative mode: f * 0 + i * tanh(candidate) = 0, since i = 0. -/
lemma c7d_mul_ct (th : ℚ → ℚ) :
    ((c7dcell "mul").forward th T0 (T0, T0)).2.data 0 0 0 0 = 0 := by
  simp only [ConvLSTMCell.forward, ConvLSTMCell.gate_i, ConvLSTMCell.gate_f,
    ConvLSTMCell.padding, c7dcell, baseCell, zeroL, T0, zerosT,
    hardSigmoidT, tmap, tadd, tmul, tsub, peepMul, addBias, conv2d, if_true,
    zero_mul, mul_zero, add_zero, zero_add, Finset.sum_const_zero]
  simp only [hs_neg10, hs_zero, zero_mul, mul_zero, add_zero, zero_add]

/-- Evaluation of the new cell state at the c7dcell construction in
subtractive mode: f * 0 + candidate - i = 1/2. -/
lemma c7d_sub_ct (th : ℚ → ℚ) :
    ((c7dcell "sub").forward th T0 (T0, T0)).2.data 0 0 0 0 = 1/2 := by
  simp only [ConvLSTMCell.forward, ConvLSTMCell.gate_i, ConvLSTMCell.gate_f,
    ConvLSTMCell.padding, c7dcell, baseCell, zeroL, T0, zerosT,
    hardSigmoidT, tmap, tadd, tmul, tsub, peepMul, addBias, conv2d,
    zero_mul, mul_zero, add_zero, zero_add, Finset.sum_const_zero]
  rw [if_neg (by decide : ¬("sub" : String) = "mul")]
  simp only [hs_neg10, hs_zero, zero_mul, mul_zero, add_zero, zero_add, sub_zero]

/-- C3: the bounded-sigmoid activation hard_sigmoid equals
clamp(x * 0.2 + 0.5, 0, 1): its output always lies in [0, 1], equals 0
for x below -2.5, equals 1 for x above 2.5, equals the linear expression
x * 0.2 + 0.5 on the open interval (-2.5, 2.5), and takes the spot
values 0.5 at 0, 0.9 at 2, 1 at 3, and 0 at -3. -/
theorem C3_hard_sigmoid_clamp :
    (∀ x : ℚ, 0 ≤ hard_sigmoid x ∧ hard_sigmoid x ≤ 1) ∧
    (∀ x : ℚ, x ≤ -(5/2) → hard_sigmoid x = 0) ∧
    (∀ x : ℚ, (5/2) ≤ x → hard_sigmoid x = 1) ∧
    (∀ x : ℚ, -(5/2) < x → x < 5/2 → hard_sigmoid x = x * 0.2 + 0.5) ∧
    hard_sigmoid 0 = 0.5 ∧ hard_sigmoid 2 = 0.9 ∧
    hard_sigmoid 3 = 1 ∧ hard_sigmoid (-3) = 0 := by
  refine ⟨fun x => ⟨hs_nonneg x, hs_le_one x⟩, fun x hx => hs_eq_zero hx,
    fun x hx => hs_eq_one hx, fun x h1 h2 => hs_linear (le_of_lt h1) (le_of_lt h2),
    ?_, ?_, ?_, ?_⟩
  · rw [hs_linear (by norm_num) (by norm_num)]; norm_num
  · rw [hs_linear (by norm_num) (by norm_num)]; norm_num
  · exact hs_eq_one (by norm_num)
  · exact hs_eq_zero (by norm_num)

/-- Witness for C3: the quantified clauses of C3 instantiated at the
concrete inputs -3, 1 and 5, with each hypothesis discharged there. -/
theorem C3_hard_sigmoid_clamp_witness :
    hard_sigmoid (-3) = 0 ∧ hard_sigmoid 5 = 1 ∧ hard_sigmoid 1 = 0.7 ∧
    (0 ≤ hard_sigmoid 1 ∧ hard_sigmoid 1 ≤ 1) := by
  refine ⟨C3_hard_sigmoid_clamp.2.1 (-3) (by norm_num),
    C3_hard_sigmoid_clamp.2.2.1 5 (by norm_num), ?_,
    C3_hard_sigmoid_clamp.1 1⟩
  rw [C3_hard_sigmoid_clamp.2.2.2.1 1 (by norm_num) (by norm_num)]
  norm_num

/-- C1: in multiplicative gating mode, forward computes
i = hs(Wxi(Xt) + Whi(Htm1) + Wci * Ctm1 + bi),
f = hs(Wxf(Xt) + Whf(Htm1) + Wcf * Ctm1 + bf),
candidate = tanh(Wxc(Xt) + Whc(Htm1) + bc),
Ct = f * Ctm1 + i * candidate,
o = hs(Wxo(Xt) + Who(Htm1) + Wco * Ct + bo),
and returns (Ht, Ct) with Ht = o * tanh(Ct). -/
theorem C1_mul_forward (cell : ConvLSTMCell) (th : ℚ → ℚ)
    (Xt Htm1 Ctm1 : Tensor) (hmode : cell.gating_mode = "mul") :
    cell.forward th Xt (Htm1, Ctm1) =
      (let p := (cell.kernel_size.1 / 2, cell.kernel_size.2 / 2)
       let i := hardSigmoidT (addBias
         (tadd (tadd (conv2d cell.Wxi p Xt) (conv2d cell.Whi p Htm1))
           (peepMul cell.Wci Ctm1)) cell.bi)
       let f := hardSigmoidT (addBias
         (tadd (tadd (conv2d cell.Wxf p Xt) (conv2d cell.Whf p Htm1))
           (peepMul cell.Wcf Ctm1)) cell.bf)
       let candidate := tmap th (addBias
         (tadd (conv2d cell.Wxc p Xt) (conv2d cell.Whc p Htm1)) cell.bc)
       let Ct := tadd (tmul f Ctm1) (tmul i candidate)
       let o := hardSigmoidT (addBias
         (tadd (tadd (conv2d cell.Wxo p Xt) (conv2d cell.Who p Htm1))
           (peepMul cell.Wco Ct)) cell.bo)
       (tmul o (tmap th Ct), Ct)) := by
  simp only [ConvLSTMCell.forward, ConvLSTMCell.gate_i, ConvLSTMCell.gate_f,
    ConvLSTMCell.padding, hmode, if_true]

/-- Witness for C1: the multiplicative equation instantiated at the
concrete minimal cell in mode "mul" with zero input and zero state. -/
theorem C1_mul_forward_witness :
    (baseCell "mul").forward thId T0 (T0, T0) =
      (let p := ((baseCell "mul").kernel_size.1 / 2, (baseCell "mul").kernel_size.2 / 2)
       let i := hardSigmoidT (addBias
         (tadd (tadd (conv2d (baseCell "mul").Wxi p T0) (conv2d (baseCell "mul").Whi p T0))
           (peepMul (baseCell "mul").Wci T0)) (baseCell "mul").bi)
       let f := hardSigmoidT (addBias
         (tadd (tadd (conv2d (baseCell "mul").Wxf p T0) (conv2d (baseCell "mul").Whf p T0))
           (peepMul (baseCell "mul").Wcf T0)) (baseCell "mul").bf)
       let candidate := tmap thId (addBias
         (tadd (conv2d (baseCell "mul").Wxc p T0) (conv2d (baseCell "mul").Whc p T0))
         (baseCell "mul").bc)
       let Ct := tadd (tmul f T0) (tmul i candidate)
       let o := hardSigmoidT (addBias
         (tadd (tadd (conv2d (baseCell "mul").Wxo p T0) (conv2d (baseCell "mul").Who p T0))
           (peepMul (baseCell "mul").Wco Ct)) (baseCell "mul").bo)
       (tmul o (tmap thId Ct), Ct)) :=
  C1_mul_forward (baseCell "mul") thId T0 T0 T0 rfl

/-- C2: in subtractive gating mode, forward computes i and f as in
multiplicative mode, candidate = hs(Wxc(Xt) + Whc(Htm1) + bc),
Ct = f * Ctm1 + candidate - i (candidate minus i),
o = hs(Wxo(Xt) + Who(Htm1) + Wco * Ct + bo),
and returns (Ht, Ct) with Ht = hs(Ct) - o (hs(Ct) minus o). -/
theorem C2_sub_forward (cell : ConvLSTMCell) (th : ℚ → ℚ)
    (Xt Htm1 Ctm1 : Tensor) (hmode : cell.gating_mode = "sub") :
    cell.forward th Xt (Htm1, Ctm1) =
      (let p := (cell.kernel_size.1 / 2, cell.kernel_size.2 / 2)
       let i := hardSigmoidT (addBias
         (tadd (tadd (conv2d cell.Wxi p Xt) (conv2d cell.Whi p Htm1))
           (peepMul cell.Wci Ctm1)) cell.bi)
       let f := hardSigmoidT (addBias
         (tadd (tadd (conv2d cell.Wxf p Xt) (conv2d cell.Whf p Htm1))
           (peepMul cell.Wcf Ctm1)) cell.bf)
       let candidate := hardSigmoidT (addBias
         (tadd (conv2d cell.Wxc p Xt) (conv2d cell.Whc p Htm1)) cell.bc)
       let Ct := tsub (tadd (tmul f Ctm1) candidate) i
       let o := hardSigmoidT (addBias
         (tadd (tadd (conv2d cell.Wxo p Xt) (conv2d cell.Who p Htm1))
           (peepMul cell.Wco Ct)) cell.bo)
       (tsub (hardSigmoidT Ct) o, Ct)) := by
  have hne : cell.gating_mode ≠ "mul" := by rw [hmode]; decide
  simp only [ConvLSTMCell.forward, ConvLSTMCell.gate_i, ConvLSTMCell.gate_f,
    ConvLSTMCell.padding, hne, if_false]

/-- Witness for C2: the subtractive equation instantiated at the concrete
minimal cell in mode "sub" with zero input and zero state. -/
theorem C2_sub_forward_witness :
    (baseCell "sub").forward thId T0 (T0, T0) =
      (let p := ((baseCell "sub").kernel_size.1 / 2, (baseCell "sub").kernel_size.2 / 2)
       let i := hardSigmoidT (addBias
         (tadd (tadd (conv2d (baseCell "sub").Wxi p T0) (conv2d (baseCell "sub").Whi p T0))
           (peepMul (baseCell "sub").Wci T0)) (baseCell "sub").bi)
       let f := hardSigmoidT (addBias
         (tadd (tadd (conv2d (baseCell "sub").Wxf p T0) (conv2d (baseCell "sub").Whf p T0))
           (peepMul (baseCell "sub").Wcf T0)) (baseCell "sub").bf)
       let candidate := hardSigmoidT (addBias
         (tadd (conv2d (baseCell "sub").Wxc p T0) (conv2d (baseCell "sub").Whc p T0))
         (baseCell "sub").bc)
       let Ct := tsub (tadd (tmul f T0) candidate) i
       let o := hardSigmoidT (addBias
         (tadd (tadd (conv2d (baseCell "sub").Wxo p T0) (conv2d (baseCell "sub").Who p T0))
           (peepMul (baseCell "sub").Wco Ct)) (baseCell "sub").bo)
       (tsub (hardSigmoidT Ct) o, Ct)) :=
  C2_sub_forward (baseCell "sub") thId T0 T0 T0 rfl

/-- C6: the peephole flag never changes the value computed by forward —
two cells identical except for the flag, with all three peephole tensors
equal to the constant one, produce identical outputs on every input frame
and previous state (the flag only marks the peephole tensors trainable in
the source, via requires_grad at construction). -/
theorem C6_peephole_flag_value_irrelevant (cell : ConvLSTMCell) (th : ℚ → ℚ)
    (p1 p2 : Bool) (Xt Htm1 Ctm1 : Tensor)
    (h1 : cell.Wci = fun _ _ _ => 1) (h2 : cell.Wcf = fun _ _ _ => 1)
    (h3 : cell.Wco = fun _ _ _ => 1) :
    ({cell with peephole := p1} : ConvLSTMCell).forward th Xt (Htm1, Ctm1) =
      ({cell with peephole := p2} : ConvLSTMCell).forward th Xt (Htm1, Ctm1) := by
  cases cell
  rfl

/-- Witness for C6: the concrete minimal cell (whose peephole tensors are
the constant one) with the flag on versus off, on zero input and state. -/
theorem C6_peephole_flag_value_irrelevant_witness :
    ({baseCell "mul" with peephole := true} : ConvLSTMCell).forward thId T0 (T0, T0) =
      ({baseCell "mul" with peephole := false} : ConvLSTMCell).forward thId T0 (T0, T0) :=
  C6_peephole_flag_value_irrelevant (baseCell "mul") thId true false T0 T0 T0 rfl rfl rfl

/-- C4: for every well-formed configuration with odd kernel dimensions
and padding (kh // 2, kw // 2), and every batch size at least 1, if the
input frame has shape (b, input_dim, h, w) and the previous state tensors
have shape (b, hidden_dim, h, w) with (h, w) the configured input size,
then both outputs of forward have shape exactly (b, hidden_dim, h, w),
and init_hidden produces tensors of that same shape. -/
theorem C4_forward_shapes (cell : ConvLSTMCell) (th : ℚ → ℚ)
    (hwf : cell.WellFormed)
    (hk1 : cell.kernel_size.1 % 2 = 1) (hk2 : cell.kernel_size.2 % 2 = 1)
    (b : ℕ) (hb : 1 ≤ b) (Xt Htm1 Ctm1 : Tensor)
    (hXn : Xt.n = b) (hXc : Xt.c = cell.input_dim)
    (hXh : Xt.h = cell.input_size.1) (hXw : Xt.w = cell.input_size.2)
    (hHn : Htm1.n = b) (hHc : Htm1.c = cell.hidden_dim)
    (hHh : Htm1.h = cell.input_size.1) (hHw : Htm1.w = cell.input_size.2)
    (hCn : Ctm1.n = b) (hCc : Ctm1.c = cell.hidden_dim)
    (hCh : Ctm1.h = cell.input_size.1) (hCw : Ctm1.w = cell.input_size.2) :
    ((cell.forward th Xt (Htm1, Ctm1)).1.n = b ∧
     (cell.forward th Xt (Htm1, Ctm1)).1.c = cell.hidden_dim ∧
     (cell.forward th Xt (Htm1, Ctm1)).1.h = cell.input_size.1 ∧
     (cell.forward th Xt (Htm1, Ctm1)).1.w = cell.input_size.2) ∧
    ((cell.forward th Xt (Htm1, Ctm1)).2.n = b ∧
     (cell.forward th Xt (Htm1, Ctm1)).2.c = cell.hidden_dim ∧
     (cell.forward th Xt (Htm1, Ctm1)).2.h = cell.input_size.1 ∧
     (cell.forward th Xt (Htm1, Ctm1)).2.w = cell.input_size.2) ∧
    ((cell.init_hidden b).1.2.n = b ∧ (cell.init_hidden b).1.2.c = cell.hidden_dim ∧
     (cell.init_hidden b).1.2.h = cell.input_size.1 ∧
     (cell.init_hidden b).1.2.w = cell.input_size.2) ∧
    ((cell.init_hidden b).2.2.n = b ∧ (cell.init_hidden b).2.2.c = cell.hidden_dim ∧
     (cell.init_hidden b).2.2.h = cell.input_size.1 ∧
     (cell.init_hidden b).2.2.w = cell.input_size.2) := by
  obtain ⟨⟨ha1, ha2, ha3, ha4⟩, ⟨hb1, hb2, hb3, hb4⟩, ⟨hc1, hc2, hc3, hc4⟩,
    ⟨hd1, hd2, hd3, hd4⟩, ⟨he1, he2, he3, he4⟩, ⟨hf1, hf2, hf3, hf4⟩,
    ⟨hg1, hg2, hg3, hg4⟩, ⟨hh1, hh2, hh3, hh4⟩⟩ := hwf
  by_cases hm : cell.gating_mode = "mul"
  · simp only [ConvLSTMCell.forward, ConvLSTMCell.gate_i, ConvLSTMCell.gate_f,
      ConvLSTMCell.padding, ConvLSTMCell.init_hidden, zerosT, hm, if_true,
      hardSigmoidT, tmap, tadd, tmul, tsub, peepMul, addBias, conv2d]
    refine ⟨⟨?_, ?_, ?_, ?_⟩, ⟨?_, ?_, ?_, ?_⟩, ⟨?_, ?_, ?_, ?_⟩, ⟨?_, ?_, ?_, ?_⟩⟩ <;>
      first
      | omega
      | trivial
  · simp only [ConvLSTMCell.forward, ConvLSTMCell.gate_i, ConvLSTMCell.gate_f,
      ConvLSTMCell.padding, ConvLSTMCell.init_hidden, zerosT,
      hardSigmoidT, tmap, tadd, tmul, tsub, peepMul, addBias, conv2d]
    simp only [if_neg hm]
    refine ⟨⟨?_, ?_, ?_, ?_⟩, ⟨?_, ?_, ?_, ?_⟩, ⟨?_, ?_, ?_, ?_⟩, ⟨?_, ?_, ?_, ?_⟩⟩ <;>
      first
      | omega
      | trivial

/-- Witness for C4: the shape contract evaluated at the concrete minimal
cell (all its conv layers have matching dimensions and odd 1x1 kernels)
with batch size 1 and zero tensors. -/
theorem C4_forward_shapes_witness :
    (((baseCell "mul").forward thId T0 (T0, T0)).1.n = 1 ∧
     ((baseCell "mul").forward thId T0 (T0, T0)).1.c = (baseCell "mul").hidden_dim ∧
     ((baseCell "mul").forward thId T0 (T0, T0)).1.h = (baseCell "mul").input_size.1 ∧
     ((baseCell "mul").forward thId T0 (T0, T0)).1.w = (baseCell "mul").input_size.2) ∧
    (((baseCell "mul").forward thId T0 (T0, T0)).2.n = 1 ∧
     ((baseCell "mul").forward thId T0 (T0, T0)).2.c = (baseCell "mul").hidden_dim ∧
     ((baseCell "mul").forward thId T0 (T0, T0)).2.h = (baseCell "mul").input_size.1 ∧
     ((baseCell "mul").forward thId T0 (T0, T0)).2.w = (baseCell "mul").input_size.2) ∧
    (((baseCell "mul").init_hidden 1).1.2.n = 1 ∧
     ((baseCell "mul").init_hidden 1).1.2.c = (baseCell "mul").hidden_dim ∧
     ((baseCell "mul").init_hidden 1).1.2.h = (baseCell "mul").input_size.1 ∧
     ((baseCell "mul").init_hidden 1).1.2.w = (baseCell "mul").input_size.2) ∧
    (((baseCell "mul").init_hidden 1).2.2.n = 1 ∧
     ((baseCell "mul").init_hidden 1).2.2.c = (baseCell "mul").hidden_dim ∧
     ((baseCell "mul").init_hidden 1).2.2.h = (baseCell "mul").input_size.1 ∧
     ((baseCell "mul").init_hidden 1).2.2.w = (baseCell "mul").input_size.2) :=
  C4_forward_shapes (baseCell "mul") thId
    ⟨⟨rfl, rfl, rfl, rfl⟩, ⟨rfl, rfl, rfl, rfl⟩, ⟨rfl, rfl, rfl, rfl⟩,
     ⟨rfl, rfl, rfl, rfl⟩, ⟨rfl, rfl, rfl, rfl⟩, ⟨rfl, rfl, rfl, rfl⟩,
     ⟨rfl, rfl, rfl, rfl⟩, ⟨rfl, rfl, rfl, rfl⟩⟩
    rfl rfl 1 (by decide) T0 T0 T0
    rfl rfl rfl rfl rfl rfl rfl rfl rfl rfl rfl rfl

/-- C5 (amended): a cell constructed with a gating_mode other than "mul"
raises no error at construction or at forward; forward silently computes
the subtractive-mode result, because the source branches on
gating_mode == 'mul' with a bare else and never validates the mode. -/
theorem C5_unknown_mode_runs_sub (cell : ConvLSTMCell) (th : ℚ → ℚ)
    (Xt Htm1 Ctm1 : Tensor) (hmode : cell.gating_mode ≠ "mul") :
    cell.forward th Xt (Htm1, Ctm1) =
      ({cell with gating_mode := "sub"} : ConvLSTMCell).forward th Xt (Htm1, Ctm1) := by
  simp only [ConvLSTMCell.forward]
  rw [if_neg hmode, if_neg (by decide : ¬("sub" : String) = "mul")]
  rfl

/-- Counterexample to C5 as stated: a cell whose gating_mode is "bogus"
(neither "mul" nor "sub") does not fail — forward silently computes a
result, the same one the subtractive mode computes. -/
theorem C5_counterexample :
    ((baseCell "bogus").gating_mode ≠ "mul" ∧ (baseCell "bogus").gating_mode ≠ "sub") ∧
    (baseCell "bogus").forward thId T0 (T0, T0) = (baseCell "sub").forward thId T0 (T0, T0) := by
  refine ⟨⟨by decide, by decide⟩, ?_⟩
  simp only [ConvLSTMCell.forward]
  rw [if_neg (by decide : ¬(baseCell "bogus").gating_mode = "mul"),
    if_neg (by decide : ¬(baseCell "sub").gating_mode = "mul")]
  rfl

/-- Witness for the amended C5: the concrete cell with mode "bogus"
computes exactly what the same cell with mode "sub" computes. -/
theorem C5_unknown_mode_runs_sub_witness :
    (baseCell "bogus").forward thId T0 (T0, T0) =
      ({baseCell "bogus" with gating_mode := "sub"} : ConvLSTMCell).forward thId T0 (T0, T0) :=
  C5_unknown_mode_runs_sub (baseCell "bogus") thId T0 T0 T0 (by decide)

/-- Counterexample to C7 as stated: a configuration satisfying the
claim's disjunctive non-triviality trigger — the forget gate is
identically 1/2, hence not identically 1 (the input gate is identically 0
here, so only the f-disjunct of the trigger holds) — on which the
multiplicative-mode and subtractive-mode outputs coincide: all conv
weights zero, peephole weights zero, bi = bc = bo = -10, bf = 0, zero
input and hidden state, previous cell state -10: both modes return
(0, -5). The outputs are independent of the tanh argument because its two
occurrences carry the factor i = 0 and o = 0. -/
theorem C7_counterexample :
    ((c7cell "mul").gate_f T0 T0 CmT).data 0 0 0 0 ≠ 1 ∧
    (c7cell "mul").forward thId T0 (T0, CmT) = (c7cell "sub").forward thId T0 (T0, CmT) := by
  constructor
  · simp only [ConvLSTMCell.gate_f, ConvLSTMCell.padding, c7cell, baseCell, zeroL, T0, CmT,
      hardSigmoidT, tmap, tadd, peepMul, addBias, conv2d,
      zero_mul, mul_zero, add_zero, zero_add, Finset.sum_const_zero, hs_zero]
    norm_num
  · exact (c7_mul_eval thId).trans (c7_sub_eval thId).symm

/-- C7 (amended): the two gating code paths are not identical — there
exist fixed inputs and weights with non-trivial gate activations in the
claim's disjunctive sense (the forget gate is identically 1/2, not 1) on
which the multiplicative-mode output differs from the subtractive-mode
output, for every tanh activation; equality of the two modes can
nevertheless occur at other weights that also satisfy that same
f-disjunct of the trigger. -/
theorem C7_mode_divergence (th : ℚ → ℚ) :
    ((c7dcell "mul").gate_f T0 T0 T0).data 0 0 0 0 ≠ 1 ∧
    (c7dcell "mul").forward th T0 (T0, T0) ≠ (c7dcell "sub").forward th T0 (T0, T0) := by
  constructor
  · simp only [ConvLSTMCell.gate_f, ConvLSTMCell.padding, c7dcell, baseCell, zeroL, T0,
      hardSigmoidT, tmap, tadd, peepMul, addBias, conv2d,
      zero_mul, mul_zero, add_zero, zero_add, Finset.sum_const_zero, hs_zero]
    norm_num
  · intro h
    have h2 := congrArg (fun pr => (pr.2.data 0 0 0 0 : ℚ)) h
    simp only at h2
    rw [c7d_mul_ct th, c7d_sub_ct th] at h2
    norm_num at h2

/-- C8: device behaviour of the forward transition. Because hard_sigmoid
pins its clamp bounds to the CUDA device (lines 27-29), forward on
all-CPU operands raises a device-mismatch error in both gating modes
instead of completing, while on all-CUDA operands it completes with both
outputs on CUDA and performs no transfer. This refutes the claim that the
transition never raises: it is exception-free only when every operand
already resides on CUDA. -/
theorem C8_device_pinning :
    forward_device "mul" Device.cpu Device.cpu Device.cpu Device.cpu =
      Except.error "Expected all tensors to be on the same device" ∧
    forward_device "sub" Device.cpu Device.cpu Device.cpu Device.cpu =
      Except.error "Expected all tensors to be on the same device" ∧
    hard_sigmoid_device Device.cpu =
      Except.error "Expected all tensors to be on the same device" ∧
    forward_device "mul" Device.cuda Device.cuda Device.cuda Device.cuda =
      Except.ok (Device.cuda, Device.cuda) ∧
    forward_device "sub" Device.cuda Device.cuda Device.cuda Device.cuda =
      Except.ok (Device.cuda, Device.cuda) :=
  ⟨rfl, rfl, rfl, rfl, rfl⟩

/-- C9: for every batch size at least 1, init_hidden returns a pair of
all-zero tensors of shape (batch_size, hidden_dim, h, w) with (h, w) the
configured input size, both tagged with the device of the Wxi
convolution's weight; it reads the cell without modifying it (it is a
pure function of the cell in this model) and repeated calls with the same
batch size return equal results. -/
theorem C9_init_hidden (cell : ConvLSTMCell) (b : ℕ) (hb : 1 ≤ b) :
    (cell.init_hidden b).1.1 = cell.Wxi.dev ∧
    (cell.init_hidden b).2.1 = cell.Wxi.dev ∧
    ((cell.init_hidden b).1.2.n = b ∧ (cell.init_hidden b).1.2.c = cell.hidden_dim ∧
     (cell.init_hidden b).1.2.h = cell.input_size.1 ∧
     (cell.init_hidden b).1.2.w = cell.input_size.2) ∧
    ((cell.init_hidden b).2.2.n = b ∧ (cell.init_hidden b).2.2.c = cell.hidden_dim ∧
     (cell.init_hidden b).2.2.h = cell.input_size.1 ∧
     (cell.init_hidden b).2.2.w = cell.input_size.2) ∧
    (∀ i j y x : ℕ, (cell.init_hidden b).1.2.data i j y x = 0 ∧
      (cell.init_hidden b).2.2.data i j y x = 0) ∧
    cell.init_hidden b = cell.init_hidden b :=
  ⟨rfl, rfl, ⟨rfl, rfl, rfl, rfl⟩, ⟨rfl, rfl, rfl, rfl⟩,
    fun _ _ _ _ => ⟨rfl, rfl⟩, rfl⟩

/-- Witness for C9: the initializer contract evaluated at the concrete
minimal cell with batch size 1. -/
theorem C9_init_hidden_witness :
    ((baseCell "mul").init_hidden 1).1.1 = (baseCell "mul").Wxi.dev ∧
    ((baseCell "mul").init_hidden 1).2.1 = (baseCell "mul").Wxi.dev ∧
    (((baseCell "mul").init_hidden 1).1.2.n = 1 ∧
     ((baseCell "mul").init_hidden 1).1.2.c = (baseCell "mul").hidden_dim ∧
     ((baseCell "mul").init_hidden 1).1.2.h = (baseCell "mul").input_size.1 ∧
     ((baseCell "mul").init_hidden 1).1.2.w = (baseCell "mul").input_size.2) ∧
    (((baseCell "mul").init_hidden 1).2.2.n = 1 ∧
     ((baseCell "mul").init_hidden 1).2.2.c = (baseCell "mul").hidden_dim ∧
     ((baseCell "mul").init_hidden 1).2.2.h = (baseCell "mul").input_size.1 ∧
     ((baseCell "mul").init_hidden 1).2.2.w = (baseCell "mul").input_size.2) ∧
    (∀ i j y x : ℕ, ((baseCell "mul").init_hidden 1).1.2.data i j y x = 0 ∧
      ((baseCell "mul").init_hidden 1).2.2.data i j y x = 0) ∧
    (baseCell "mul").init_hidden 1 = (baseCell "mul").init_hidden 1 :=
  C9_init_hidden (baseCell "mul") 1 (by decide)

/-- C10: forward mutates neither its arguments nor the cell's parameters.
In the store-passing model every pre-existing store cell (the input
frame, the previous state, and any other live tensor) holds exactly its
old value after the transition, the cell record itself is untouched (the
model threads it unchanged by construction, matching the source, whose
forward only reads module attributes), and the returned pair consists of
freshly allocated tensors (their indices lie at or beyond the old store
length) holding the values of the pure transition. -/
theorem C10_forward_no_mutation (cell : ConvLSTMCell) (th : ℚ → ℚ) (s : Store)
    (ix ih ic j : ℕ) (hj : j < s.length) :
    (forwardStore cell th s ix ih ic).1.getD j default = s.getD j default ∧
    s.length ≤ (forwardStore cell th s ix ih ic).2.1 ∧
    s.length ≤ (forwardStore cell th s ix ih ic).2.2 ∧
    readT (forwardStore cell th s ix ih ic).1 (forwardStore cell th s ix ih ic).2.1 =
      (cell.forward th (readT s ix) (readT s ih, readT s ic)).1 ∧
    readT (forwardStore cell th s ix ih ic).1 (forwardStore cell th s ix ih ic).2.2 =
      (cell.forward th (readT s ix) (readT s ih, readT s ic)).2 := by
  unfold forwardStore alloc
  refine ⟨?_, ?_, ?_, ?_, ?_⟩
  · simp only [List.append_assoc]
    exact List.getD_append _ _ _ _ hj
  · simp
  · simp
  · unfold readT
    simp only [List.append_assoc]
    rw [List.getD_append_right _ _ _ _ (le_refl _)]
    simp
  · unfold readT
    rw [List.getD_append_right _ _ _ _ (by simp)]
    simp

/-- Witness for C10: the frame property evaluated at the concrete minimal
cell over a one-cell store holding the zero tensor. -/
theorem C10_forward_no_mutation_witness :
    (forwardStore (baseCell "mul") thId [T0] 0 0 0).1.getD 0 default =
      [T0].getD 0 default ∧
    [T0].length ≤ (forwardStore (baseCell "mul") thId [T0] 0 0 0).2.1 ∧
    [T0].length ≤ (forwardStore (baseCell "mul") thId [T0] 0 0 0).2.2 ∧
    readT (forwardStore (baseCell "mul") thId [T0] 0 0 0).1
        (forwardStore (baseCell "mul") thId [T0] 0 0 0).2.1 =
      ((baseCell "mul").forward thId (readT [T0] 0) (readT [T0] 0, readT [T0] 0)).1 ∧
    readT (forwardStore (baseCell "mul") thId [T0] 0 0 0).1
        (forwardStore (baseCell "mul") thId [T0] 0 0 0).2.2 =
      ((baseCell "mul").forward thId (readT [T0] 0) (readT [T0] 0, readT [T0] 0)).2 :=
  C10_forward_no_mutation (baseCell "mul") thId [T0] 0 0 0 0 (by decide)
